import Mathlib

/-
Verification of the BenWeather comparison engine, embedded shallowly from
the client-side modules under src/static/js/ and the legacy monolith
src/static/app.js.  The server-side Month Scorer is not part of the
repository snapshot; where a claim depends on it, the scorer is modelled
from the specification and marked as such.
-/

/-- Lexicographic comparison of character lists, `a ≤ b`: the order JS
string comparison (`<`, `sort()`, `localeCompare` on ASCII data) uses,
comparing code units left to right with a shorter prefix sorting first. -/
def charsLe : List Char → List Char → Bool
  | [], _ => true
  | _ :: _, [] => false
  | a :: as, b :: bs => if a = b then charsLe as bs else decide (a < b)

/-- String comparison as JS performs it: lexicographic on the code units. -/
def strLe (a b : String) : Bool :=
  charsLe a.data b.data

theorem charsLe_total (a b : List Char) : charsLe a b = true ∨ charsLe b a = true := by
  induction a generalizing b with
  | nil => left; rfl
  | cons x xs ih =>
    cases b with
    | nil => right; rfl
    | cons y ys =>
      by_cases hxy : x = y
      · subst hxy
        simpa only [charsLe, if_pos rfl] using ih ys
      · have hyx : ¬y = x := fun h => hxy h.symm
        simp only [charsLe, if_neg hxy, if_neg hyx, decide_eq_true_eq]
        rcases lt_trichotomy x y with h | h | h
        · exact Or.inl h
        · exact absurd h hxy
        · exact Or.inr h

theorem charsLe_trans (a b c : List Char) (h1 : charsLe a b = true)
    (h2 : charsLe b c = true) : charsLe a c = true := by
  induction a generalizing b c with
  | nil => rfl
  | cons x xs ih =>
    cases b with
    | nil => simp [charsLe] at h1
    | cons y ys =>
      cases c with
      | nil => simp [charsLe] at h2
      | cons z zs =>
        by_cases hxy : x = y <;> by_cases hyz : y = z
        · subst hxy; subst hyz
          simp only [charsLe, if_pos rfl] at h1 h2 ⊢
          exact ih ys zs h1 h2
        · subst hxy
          simp only [charsLe, if_pos rfl, if_neg hyz, decide_eq_true_eq] at h1 h2 ⊢
          exact h2
        · subst hyz
          simp only [charsLe, if_neg hxy, decide_eq_true_eq] at h1 ⊢
          exact h1
        · simp only [charsLe, if_neg hxy, if_neg hyz, decide_eq_true_eq] at h1 h2
          have hxz : x < z := lt_trans h1 h2
          simp only [charsLe, if_neg (ne_of_lt hxz), decide_eq_true_eq]
          exact hxz

theorem charsLe_antisymm (a b : List Char) (h1 : charsLe a b = true)
    (h2 : charsLe b a = true) : a = b := by
  induction a generalizing b with
  | nil =>
    cases b with
    | nil => rfl
    | cons y ys => simp [charsLe] at h2
  | cons x xs ih =>
    cases b with
    | nil => simp [charsLe] at h1
    | cons y ys =>
      by_cases hxy : x = y
      · subst hxy
        simp only [charsLe, if_pos rfl] at h1 h2
        rw [ih ys h1 h2]
      · have hyx : ¬y = x := fun h => hxy h.symm
        simp only [charsLe, if_neg hxy, if_neg hyx, decide_eq_true_eq] at h1 h2
        exact absurd (lt_trans h1 h2) (lt_irrefl x)

theorem strLe_total (a b : String) : strLe a b = true ∨ strLe b a = true :=
  charsLe_total a.data b.data

theorem strLe_trans (a b c : String) (h1 : strLe a b = true) (h2 : strLe b c = true) :
    strLe a c = true :=
  charsLe_trans a.data b.data c.data h1 h2

theorem strLe_antisymm (a b : String) (h1 : strLe a b = true) (h2 : strLe b a = true) :
    a = b := by
  cases a with
  | mk da =>
    cases b with
    | mk db =>
      exact congrArg String.mk (charsLe_antisymm da db h1 h2)

/-- The JS string order as a `Prop`-valued relation, for sorting lemmas. -/
def strLeRel (a b : String) : Prop :=
  strLe a b = true

instance : DecidableRel strLeRel := fun a b => instDecidableEqBool (strLe a b) true

instance : IsTotal String strLeRel :=
  ⟨strLe_total⟩

instance : IsTrans String strLeRel :=
  ⟨strLe_trans⟩

instance : IsAntisymm String strLeRel :=
  ⟨strLe_antisymm⟩

/-- A saved location as the comparison code sees it: only the stringified
coordinates matter for keys, since the source interpolates `loc.lat` and
`loc.lon` into template strings. -/
structure Location where
  lat : String
  lon : String
deriving DecidableEq

/-- A saved comparison configuration (`state.comparisons[i]`): two
locations plus the metric-visibility arrays `hidden_metrics` and
`display_metrics`.  An absent array is the empty list, matching the
JS fallback `comp.hidden_metrics || []` in the source. -/
structure Comp where
  loc1 : Location
  loc2 : Location
  hidden_metrics : List String
  display_metrics : List String
deriving DecidableEq

/-- The string `lat,lon` built for each side of `comparisonKey`
(src/static/js/api.js, lines 93-94). -/
def locKey (l : Location) : String :=
  l.lat ++ "," ++ l.lon

/-- JS `[k1, k2].sort().join("|")`: the default sort compares strings by
code units, so a two-element array sorts to (min, max). -/
def sortedPairKey (k1 k2 : String) : String :=
  if strLe k1 k2 then k1 ++ "|" ++ k2 else k2 ++ "|" ++ k1

/-- Embeds `comparisonKey` (src/static/js/api.js, lines 92-96); `_comparisonKey`
in src/static/app.js lines 119-123 is textually identical. -/
def comparisonKey (c : Comp) : String :=
  sortedPairKey (locKey c.loc1) (locKey c.loc2)

/-- JS `Array.prototype.sort()` on an array of strings: a stable sort by
the code-unit string order. -/
def sortStrings (l : List String) : List String :=
  l.insertionSort strLeRel

/-- JS `Array.prototype.join(",")`. -/
def joinComma : List String → String
  | [] => ""
  | [a] => a
  | a :: b :: rest => a ++ "," ++ joinComma (b :: rest)

/-- Embeds `compCacheKey` (src/static/js/comparison.js, lines 13-17): `notScored`
is the sorted comma-join of `hidden_metrics` concatenated with
`display_metrics`, and the `#` part is appended only when that join is a
truthy (nonempty) string. -/
def compCacheKey (c : Comp) : String :=
  let base := comparisonKey c
  let notScored := joinComma (sortStrings (c.hidden_metrics ++ c.display_metrics))
  if notScored ≠ "" then base ++ "#" ++ notScored else base

/-- The comparison with its two locations exchanged. -/
def swapLocs (c : Comp) : Comp :=
  { c with loc1 := c.loc2, loc2 := c.loc1 }

theorem sortedPairKey_comm (k1 k2 : String) :
    sortedPairKey k1 k2 = sortedPairKey k2 k1 := by
  unfold sortedPairKey
  rcases strLe_total k1 k2 with h | h
  · by_cases h2 : strLe k2 k1 = true
    · have heq : k1 = k2 := strLe_antisymm k1 k2 h h2
      subst heq
      simp
    · simp [h, h2]
  · by_cases h2 : strLe k1 k2 = true
    · have heq : k1 = k2 := strLe_antisymm k1 k2 h2 h
      subst heq
      simp
    · simp [h, h2]

/-- Claim C6: the comparison cache key is invariant under swapping the two
locations: both the base location-pair key and the full cache key computed
for (loc1 = A, loc2 = B) equal the ones computed for (loc1 = B, loc2 = A)
with the same metric-visibility configuration. -/
theorem comparison_key_swap_invariant (c : Comp) :
    comparisonKey (swapLocs c) = comparisonKey c ∧
    compCacheKey (swapLocs c) = compCacheKey c := by
  have hbase : comparisonKey (swapLocs c) = comparisonKey c := by
    simp only [comparisonKey, swapLocs]
    exact sortedPairKey_comm _ _
  refine ⟨hbase, ?_⟩
  simp only [compCacheKey]
  rw [show (swapLocs c).hidden_metrics = c.hidden_metrics from rfl,
      show (swapLocs c).display_metrics = c.display_metrics from rfl, hbase]

theorem sortStrings_perm (l : List String) : (sortStrings l).Perm l :=
  List.perm_insertionSort _ l

theorem sortStrings_sorted (l : List String) : (sortStrings l).Sorted strLeRel :=
  List.sorted_insertionSort _ l

theorem sortStrings_congr_perm (l1 l2 : List String) (h : l1.Perm l2) :
    sortStrings l1 = sortStrings l2 :=
  List.eq_of_perm_of_sorted (((sortStrings_perm l1).trans h).trans (sortStrings_perm l2).symm)
    (sortStrings_sorted l1) (sortStrings_sorted l2)

theorem joinComma_ne_empty (l : List String) (hl : l ≠ []) (h : ∀ s ∈ l, s ≠ "") :
    joinComma l ≠ "" := by
  match l, hl with
  | [a], _ =>
    simpa [joinComma] using h a (by simp)
  | a :: b :: rest, _ =>
    intro hc
    have hcomma : ("," : String).length = 1 := rfl
    have hlen : (joinComma (a :: b :: rest)).length =
        a.length + ("," : String).length + (joinComma (b :: rest)).length := by
      simp [joinComma, String.length_append]
    rw [hc] at hlen
    rw [hcomma] at hlen
    have hz : ("" : String).length = 0 := rfl
    omega

/-- A comparison configuration with every metric scored: both visibility
arrays empty (the shape `loadSettings` creates for a fresh comparison). -/
def cfgAllScored : Comp :=
  { loc1 := { lat := "1", lon := "2" }, loc2 := { lat := "3", lon := "4" },
    hidden_metrics := [], display_metrics := [] }

/-- Same location pair, with the metric key "a" both hidden and
display-only: the union of the two arrays is the singleton set containing
"a". -/
def cfgDupBoth : Comp :=
  { loc1 := { lat := "1", lon := "2" }, loc2 := { lat := "3", lon := "4" },
    hidden_metrics := ["a"], display_metrics := ["a"] }

/-- Same location pair, with the metric key "a" hidden only: the union of
the two arrays is again the singleton set containing "a". -/
def cfgDupHidden : Comp :=
  { loc1 := { lat := "1", lon := "2" }, loc2 := { lat := "3", lon := "4" },
    hidden_metrics := ["a"], display_metrics := [] }

/-- A configuration with "a" hidden and "b" display-only. -/
def cfgSplitAB : Comp :=
  { loc1 := { lat := "1", lon := "2" }, loc2 := { lat := "3", lon := "4" },
    hidden_metrics := ["a"], display_metrics := ["b"] }

/-- A configuration with both "a" and "b" hidden and nothing
display-only: the same union as `cfgSplitAB` under a different split. -/
def cfgSplitBoth : Comp :=
  { loc1 := { lat := "1", lon := "2" }, loc2 := { lat := "3", lon := "4" },
    hidden_metrics := ["a", "b"], display_metrics := [] }

/-- Claim C3, counterexample: (i) for a configuration whose hidden/display
union is empty the computed key is the bare sorted pair key with no "#"
separator, not `sortedPairKey ++ "#" ++ ""`; (ii) two configurations with
the identical union of hidden and display metrics (the singleton "a") get
different keys, because the source joins the concatenation of the two
arrays with multiplicity rather than their set union. -/
theorem compCacheKey_claim_counterexample :
    compCacheKey cfgAllScored = "1,2|3,4" ∧
    ("1,2|3,4" : String) ≠ "1,2|3,4" ++ "#" ++ "" ∧
    cfgDupBoth.hidden_metrics = ["a"] ∧ cfgDupBoth.display_metrics = ["a"] ∧
    cfgDupHidden.hidden_metrics = ["a"] ∧ cfgDupHidden.display_metrics = [] ∧
    compCacheKey cfgDupBoth = "1,2|3,4#a,a" ∧
    compCacheKey cfgDupHidden = "1,2|3,4#a" ∧
    compCacheKey cfgDupBoth ≠ compCacheKey cfgDupHidden := by
  refine ⟨by decide, by decide, rfl, rfl, rfl, rfl, by decide, by decide, by decide⟩

/-- Claim C3, amended: the comparison cache key equals the sorted
location-pair key followed by "#" and the sorted comma-join of the
concatenation `hidden_metrics ++ display_metrics` when that concatenation
is nonempty, and is the bare sorted location-pair key (no "#" separator)
when it is empty; the key depends on the two metric arrays only through
that concatenation up to reordering, so two configurations of the same
pair whose concatenated hidden/display lists are permutations of each
other (in particular disjoint splits with the same union) share a key. -/
theorem compCacheKey_amended (c c' : Comp)
    (hne : ∀ s ∈ c.hidden_metrics ++ c.display_metrics, s ≠ "")
    (hl1 : c.loc1 = c'.loc1) (hl2 : c.loc2 = c'.loc2)
    (hperm : (c.hidden_metrics ++ c.display_metrics).Perm
      (c'.hidden_metrics ++ c'.display_metrics)) :
    (compCacheKey c =
      if c.hidden_metrics ++ c.display_metrics = [] then comparisonKey c
      else comparisonKey c ++ "#" ++
        joinComma (sortStrings (c.hidden_metrics ++ c.display_metrics))) ∧
    compCacheKey c = compCacheKey c' := by
  constructor
  · by_cases hnil : c.hidden_metrics ++ c.display_metrics = []
    · rw [if_pos hnil]
      simp [compCacheKey, hnil, sortStrings, joinComma, List.insertionSort]
    · rw [if_neg hnil]
      have hsne : sortStrings (c.hidden_metrics ++ c.display_metrics) ≠ [] := by
        intro h
        exact hnil (List.Perm.eq_nil (h ▸ (sortStrings_perm _).symm))
      have hmem : ∀ s ∈ sortStrings (c.hidden_metrics ++ c.display_metrics), s ≠ "" :=
        fun s hs => hne s ((sortStrings_perm _).mem_iff.mp hs)
      have hj := joinComma_ne_empty _ hsne hmem
      simp only [compCacheKey]
      rw [if_pos hj]
  · have hks : sortStrings (c.hidden_metrics ++ c.display_metrics) =
        sortStrings (c'.hidden_metrics ++ c'.display_metrics) :=
      sortStrings_congr_perm _ _ hperm
    have hbase : comparisonKey c = comparisonKey c' := by
      simp only [comparisonKey, hl1, hl2]
    simp only [compCacheKey, hks, hbase]

/-- Witness for `compCacheKey_amended`: concrete configurations "a" hidden
plus "b" display-only versus both hidden, over the same location pair. -/
theorem compCacheKey_amended_witness :
    (compCacheKey cfgSplitAB =
      if cfgSplitAB.hidden_metrics ++ cfgSplitAB.display_metrics = [] then comparisonKey cfgSplitAB
      else comparisonKey cfgSplitAB ++ "#" ++
        joinComma (sortStrings (cfgSplitAB.hidden_metrics ++ cfgSplitAB.display_metrics))) ∧
    compCacheKey cfgSplitAB = compCacheKey cfgSplitBoth :=
  compCacheKey_amended cfgSplitAB cfgSplitBoth (by decide) rfl rfl (by decide)

/-- The per-location monthly metric block a MonthResult embeds (spec data
model; the client reads its fields in renderCompRows).  Count metrics are
non-negative integers; the averaged metrics are nullable. -/
structure MonthlyMetrics where
  sunshine_hours : Nat
  rainy_days : Nat
  overcast_days : Nat
  cozy_overcast_days : Nat
  snow_days : Nat
  freezing_days : Nat
  hot_days : Nat
  sticky_days : Nat
  avg_daylight_hours : Option Int
  avg_sunset_min : Option Int
  avg_high : Option Int
  avg_low : Option Int
deriving DecidableEq

/-- One month of a ComparisonResult as the client consumes it. -/
structure MonthResult where
  month : String
  loc1 : MonthlyMetrics
  loc2 : MonthlyMetrics
  winner : String
  loc1_score : Nat
  loc2_score : Nat
  metric_ties : Nat
  sunset_diff : Option Int
deriving DecidableEq

/-- The pair of green-check marks a comparison-table row can carry. -/
structure RowMarks where
  mark1 : Bool
  mark2 : Bool
deriving DecidableEq

/-- The mark logic of the `row` helper inside `renderCompRows`
(src/static/js/comparison.js lines 306-313): no row is marked when
`noMarks` is set (display-only metric) or the two values are equal;
otherwise the winning side by `higherWins` gets the mark. -/
def rowMarks (higherWins : Bool) (n1 n2 : Int) (noMarks : Bool) : RowMarks :=
  if noMarks = false ∧ n1 ≠ n2 then
    if higherWins = true then
      if n1 > n2 then { mark1 := true, mark2 := false }
      else { mark1 := false, mark2 := true }
    else
      if n1 < n2 then { mark1 := true, mark2 := false }
      else { mark1 := false, mark2 := true }
  else { mark1 := false, mark2 := false }

/-- The avg-sunset row of `renderCompRows` (src/static/js/comparison.js
lines 321-325): the compared values are zeroed out unless the absolute
difference exceeds 10 minutes, so below the threshold the row ties. -/
def sunsetMarks (v1 v2 : Int) (noMarks : Bool) : RowMarks :=
  let sDiff := (v1 - v2).natAbs
  let sN1 : Int := if sDiff > 10 then v1 else 0
  let sN2 : Int := if sDiff > 10 then v2 else 0
  rowMarks true sN1 sN2 noMarks

/-- The avg-sunset row of the legacy `_renderCompRows`
(src/static/app.js lines 1497-1502): same shape but the values stay live
when the difference is at least 10 (`sDiff >= 10`), and the legacy row
helper has no noMarks argument. -/
def sunsetMarksLegacy (v1 v2 : Int) : RowMarks :=
  let sDiff := (v1 - v2).natAbs
  let sN1 : Int := if sDiff ≥ 10 then v1 else 0
  let sN2 : Int := if sDiff ≥ 10 then v2 else 0
  rowMarks true sN1 sN2 false

/-- Claim C2, counterexample: at average sunsets 1100 and 1090 the
absolute difference is exactly 10 minutes, so the claim requires a forced
tie with neither side marked, yet the legacy app.js rendering
(`sDiff >= 10`) awards the win mark to the later side. -/
theorem sunset_threshold_counterexample :
    ((1100 : Int) - 1090).natAbs ≤ 10 ∧
    (sunsetMarksLegacy 1100 1090).mark1 = true ∧
    (sunsetMarksLegacy 1100 1090).mark2 = false := by
  refine ⟨by decide, by decide, by decide⟩

/-- Claim C2, amended: in the modular view (src/static/js/comparison.js)
the later-sunset side is marked iff the absolute difference strictly
exceeds 10 minutes (differences of 10 or less, including exactly 10, tie),
and a display-only metric is never marked; in the legacy view
(src/static/app.js) the threshold is inclusive, so the later side is
marked iff the absolute difference is at least 10, and a difference of
exactly 10 minutes awards the mark there. -/
theorem sunset_threshold_amended (v1 v2 : Int) :
    ((sunsetMarks v1 v2 false).mark1 = true ↔ (v1 - v2).natAbs > 10 ∧ v1 > v2) ∧
    ((sunsetMarks v1 v2 false).mark2 = true ↔ (v1 - v2).natAbs > 10 ∧ v2 > v1) ∧
    (sunsetMarks v1 v2 true).mark1 = false ∧
    (sunsetMarks v1 v2 true).mark2 = false ∧
    ((sunsetMarksLegacy v1 v2).mark1 = true ↔ (v1 - v2).natAbs ≥ 10 ∧ v1 > v2) ∧
    ((sunsetMarksLegacy v1 v2).mark2 = true ↔ (v1 - v2).natAbs ≥ 10 ∧ v2 > v1) := by
  simp only [sunsetMarks, sunsetMarksLegacy, rowMarks]
  split_ifs <;> simp_all <;> omega

/-- Embeds `isSweep` (src/static/js/comparison.js line 206): a non-tie month with
no metric ties and a zero score on one side.  The inline sweep condition
in `renderMonthlyGroups` (line 276) repeats the same test. -/
def isSweep (m : MonthResult) : Bool :=
  m.winner != "tie" && m.metric_ties == 0 && (m.loc1_score == 0 || m.loc2_score == 0)

/-- Embeds the legacy `isSweep` of src/static/app.js line 1399: a
non-tie month with a zero score on one side, with no condition on
`metric_ties`. -/
def isSweepLegacy (m : MonthResult) : Bool :=
  m.winner != "tie" && (m.loc1_score == 0 || m.loc2_score == 0)

/-- A MonthlyMetrics block with all counts zero and all averages null. -/
def mmNull : MonthlyMetrics :=
  { sunshine_hours := 0, rainy_days := 0, overcast_days := 0,
    cozy_overcast_days := 0, snow_days := 0, freezing_days := 0,
    hot_days := 0, sticky_days := 0, avg_daylight_hours := none,
    avg_sunset_min := none, avg_high := none, avg_low := none }

/-- A month where loc1 won two metrics, loc2 none, and one metric tied. -/
def sweepClaimCex : MonthResult :=
  { month := "2024-01", loc1 := mmNull, loc2 := mmNull, winner := "loc1",
    loc1_score := 2, loc2_score := 0, metric_ties := 1, sunset_diff := none }

/-- Claim C5, counterexample: a month whose winner is not "tie" and whose
losing side scored zero (loc1 2, loc2 0, one metric tie) satisfies the
sweep condition of the claim, yet src/static/js/comparison.js does not classify
it as a sweep because its `isSweep` additionally requires
`!m.metric_ties`. -/
theorem isSweep_claim_counterexample :
    sweepClaimCex.winner ≠ "tie" ∧ sweepClaimCex.loc2_score = 0 ∧
    isSweep sweepClaimCex = false := by
  refine ⟨by decide, rfl, by decide⟩

/-- Claim C5, amended: in src/static/js/comparison.js a month is
classified and grouped as a sweep exactly when its winner is not "tie",
it has no metric ties, and the score of the losing side is zero (one location
won every compared metric outright); the legacy src/static/app.js
classifier omits the metric-tie condition and tests only that the winner
is not "tie" and the score of one side is zero. -/
theorem isSweep_amended (m : MonthResult) :
    (isSweep m = true ↔
      m.winner ≠ "tie" ∧ m.metric_ties = 0 ∧ (m.loc1_score = 0 ∨ m.loc2_score = 0)) ∧
    (isSweepLegacy m = true ↔
      m.winner ≠ "tie" ∧ (m.loc1_score = 0 ∨ m.loc2_score = 0)) := by
  constructor <;>
    simp [isSweep, isSweepLegacy, Bool.and_eq_true, Bool.or_eq_true,
      bne_iff_ne, beq_iff_eq, and_assoc]

/-- The hour component of `minutesToTime` (src/static/js/comparison.js line
432 and 435): `Math.floor(mins / 60)` mapped through `h % 12 || 12`. -/
def mttHour (mins : Nat) : Nat :=
  let h := mins / 60
  if h % 12 = 0 then 12 else h % 12

/-- The AM/PM component of `minutesToTime` (line 434): "PM" iff the 24-hour
value is at least 12. -/
def mttSuffix (mins : Nat) : String :=
  if mins / 60 ≥ 12 then "PM" else "AM"

/-- JS `m.toString().padStart(2, "0")`. -/
def pad2 (n : Nat) : String :=
  if (toString n).length < 2 then "0" ++ toString n else toString n

/-- Embeds `minutesToTime` (src/static/js/comparison.js lines 431-437);
`_minutesToTime` (src/static/app.js lines 1610-1616) is identical. -/
def minutesToTime (mins : Nat) : String :=
  let m := mins % 60
  if m = 0 then toString (mttHour mins) ++ mttSuffix mins
  else toString (mttHour mins) ++ ":" ++ pad2 m ++ mttSuffix mins

/-- Claim C10: for minutes-of-day inputs in [0, 1439] the rendered
12-hour clock has an hour component in 1..12, the suffix is "AM" exactly
when the input is before 720 (noon), and the boundary values render as
12AM and 12PM. -/
theorem minutesToTime_claim (mins : Nat) (h : mins ≤ 1439) :
    1 ≤ mttHour mins ∧ mttHour mins ≤ 12 ∧
    (mttSuffix mins = "AM" ↔ mins < 720) ∧
    minutesToTime 0 = "12AM" ∧ minutesToTime 720 = "12PM" := by
  refine ⟨?_, ?_, ?_, by decide, by decide⟩
  · show 1 ≤ if mins / 60 % 12 = 0 then 12 else mins / 60 % 12
    split_ifs <;> omega
  · show (if mins / 60 % 12 = 0 then 12 else mins / 60 % 12) ≤ 12
    split_ifs <;> omega
  · unfold mttSuffix
    by_cases hc : mins / 60 ≥ 12
    · rw [if_pos hc]
      exact iff_of_false (by decide) (by omega)
    · rw [if_neg hc]
      exact iff_of_true rfl (by omega)

/-- Witness for `minutesToTime_claim` at 300 minutes (5:00 in the
morning). -/
theorem minutesToTime_claim_witness :
    (300 : Nat) ≤ 1439 ∧
    (1 ≤ mttHour 300 ∧ mttHour 300 ≤ 12 ∧
      (mttSuffix 300 = "AM" ↔ 300 < 720) ∧
      minutesToTime 0 = "12AM" ∧ minutesToTime 720 = "12PM") :=
  ⟨by decide, minutesToTime_claim 300 (by decide)⟩

/-- One body row of the per-month comparison table: its label and its two
win marks.  The numeric display cells are not modelled; the claims
concern which rows appear and which side is marked. -/
structure CompRow where
  label : String
  mark1 : Bool
  mark2 : Bool
deriving DecidableEq

/-- The `row` helper of `renderCompRows` (src/static/js/comparison.js
lines 306-313), producing a labelled row with its marks. -/
def mkRow (label : String) (higherWins : Bool) (n1 n2 : Int) (noMarks : Bool) : CompRow :=
  { label := label,
    mark1 := (rowMarks higherWins n1 n2 noMarks).mark1,
    mark2 := (rowMarks higherWins n1 n2 noMarks).mark2 }

/-- Embeds `renderCompRows` (src/static/js/comparison.js lines 302-351) as the
list of table rows it emits, in source order: `h` is the hidden set and
`d` the display-only set of metric keys. -/
def renderCompRows (m1 m2 : MonthlyMetrics) (h d : List String) : List CompRow :=
  (if h.contains "sunshine_hours" = false then
    [mkRow "Sunshine" true m1.sunshine_hours m2.sunshine_hours (d.contains "sunshine_hours")]
  else []) ++
  (match m1.avg_daylight_hours, m2.avg_daylight_hours with
    | some v1, some v2 =>
      if h.contains "avg_daylight_hours" = false then
        [mkRow "Daylight" true v1 v2 (d.contains "avg_daylight_hours")]
      else []
    | _, _ => []) ++
  (match m1.avg_sunset_min, m2.avg_sunset_min with
    | some v1, some v2 =>
      if h.contains "avg_sunset_min" = false then
        [{ label := "Avg sunset",
           mark1 := (sunsetMarks v1 v2 (d.contains "avg_sunset_min")).mark1,
           mark2 := (sunsetMarks v1 v2 (d.contains "avg_sunset_min")).mark2 }]
      else []
    | _, _ => []) ++
  (if h.contains "rainy_days" = false then
    [mkRow "Rainy days" false m1.rainy_days m2.rainy_days (d.contains "rainy_days")]
  else []) ++
  (if h.contains "overcast_days" = false then
    [mkRow "Overcast days" true m1.overcast_days m2.overcast_days (d.contains "overcast_days")]
  else []) ++
  (if h.contains "cozy_overcast_days" = false ∧
      (0 < m1.cozy_overcast_days ∨ 0 < m2.cozy_overcast_days) then
    [mkRow "Cozy overcast" true m1.cozy_overcast_days m2.cozy_overcast_days
      (d.contains "cozy_overcast_days")]
  else []) ++
  (if h.contains "snow_days" = false ∧ (0 < m1.snow_days ∨ 0 < m2.snow_days) then
    [mkRow "Snow days" false m1.snow_days m2.snow_days (d.contains "snow_days")]
  else []) ++
  (if h.contains "freezing_days" = false ∧ (0 < m1.freezing_days ∨ 0 < m2.freezing_days) then
    [mkRow "Freezing days" false m1.freezing_days m2.freezing_days (d.contains "freezing_days")]
  else []) ++
  (if h.contains "hot_days" = false ∧ (0 < m1.hot_days ∨ 0 < m2.hot_days) then
    [mkRow "Hot days (90+)" false m1.hot_days m2.hot_days (d.contains "hot_days")]
  else []) ++
  (if h.contains "sticky_days" = false ∧ (0 < m1.sticky_days ∨ 0 < m2.sticky_days) then
    [mkRow "Sticky days (100+)" false m1.sticky_days m2.sticky_days (d.contains "sticky_days")]
  else []) ++
  [{ label := "Avg H / L", mark1 := false, mark2 := false }]

theorem map_label_if (c : Prop) [Decidable c] (r : CompRow) :
    (if c then [r] else []).map CompRow.label = if c then [r.label] else [] := by
  split_ifs <;> rfl

theorem mem_if_singleton (c : Prop) [Decidable c] (x r : String) :
    (x ∈ if c then [r] else []) ↔ c ∧ x = r := by
  split_ifs with hc <;> simp [hc]

/-- Claim C8: in the rendered per-month table, each activity metric row
(snow, freezing, hot, sticky and cozy-overcast days) that is not hidden
appears exactly when the value of at least one side is nonzero - equivalently,
it is omitted exactly when both values are zero - while the sunshine,
rainy-days and overcast-days rows appear whenever not hidden, regardless
of their values. -/
theorem renderCompRows_presence (m1 m2 : MonthlyMetrics) (h d : List String) :
    ("Snow days" ∈ (renderCompRows m1 m2 h d).map CompRow.label ↔
      h.contains "snow_days" = false ∧ (m1.snow_days ≠ 0 ∨ m2.snow_days ≠ 0)) ∧
    ("Freezing days" ∈ (renderCompRows m1 m2 h d).map CompRow.label ↔
      h.contains "freezing_days" = false ∧ (m1.freezing_days ≠ 0 ∨ m2.freezing_days ≠ 0)) ∧
    ("Hot days (90+)" ∈ (renderCompRows m1 m2 h d).map CompRow.label ↔
      h.contains "hot_days" = false ∧ (m1.hot_days ≠ 0 ∨ m2.hot_days ≠ 0)) ∧
    ("Sticky days (100+)" ∈ (renderCompRows m1 m2 h d).map CompRow.label ↔
      h.contains "sticky_days" = false ∧ (m1.sticky_days ≠ 0 ∨ m2.sticky_days ≠ 0)) ∧
    ("Cozy overcast" ∈ (renderCompRows m1 m2 h d).map CompRow.label ↔
      h.contains "cozy_overcast_days" = false ∧
        (m1.cozy_overcast_days ≠ 0 ∨ m2.cozy_overcast_days ≠ 0)) ∧
    ("Sunshine" ∈ (renderCompRows m1 m2 h d).map CompRow.label ↔
      h.contains "sunshine_hours" = false) ∧
    ("Rainy days" ∈ (renderCompRows m1 m2 h d).map CompRow.label ↔
      h.contains "rainy_days" = false) ∧
    ("Overcast days" ∈ (renderCompRows m1 m2 h d).map CompRow.label ↔
      h.contains "overcast_days" = false) := by
  cases hd1 : m1.avg_daylight_hours <;> cases hd2 : m2.avg_daylight_hours <;>
    cases hs1 : m1.avg_sunset_min <;> cases hs2 : m2.avg_sunset_min <;>
      simp only [renderCompRows, hd1, hd2, hs1, hs2, List.map_append, map_label_if,
        List.mem_append, mem_if_singleton, mkRow, Nat.pos_iff_ne_zero] <;>
      simp

/-- A full comparison payload as returned by /api/comparison and cached
by the client (spec data model, read by the render functions). -/
structure ComparisonResult where
  months : List MonthResult
  loc1_wins : Nat
  loc2_wins : Nat
  overall_winner : String
  window_start : String
  window_end : String
deriving DecidableEq

/-- A group in the chronological view: a merged run of consecutive sweep
months by the same winner, or a single month card. -/
inductive CompGroup
  | sweep (sweeper : String) (months : List MonthResult)
  | single (m : MonthResult)
deriving DecidableEq

/-- The months a chronological group displays. -/
def CompGroup.monthsOf : CompGroup → List MonthResult
  | .sweep _ ms => ms
  | .single m => [m]

/-- One iteration of the grouping loop of `renderChronoMonths`
(src/static/js/comparison.js lines 208-222): `acc` pairs the groups
emitted so far with the open sweep run, `m` is the next month
(most recent first). -/
def chronoStep (acc : List CompGroup × Option (String × List MonthResult))
    (m : MonthResult) : List CompGroup × Option (String × List MonthResult) :=
  match acc.2 with
  | some run =>
    if isSweep m = true ∧ run.1 = m.winner then
      (acc.1, some (run.1, run.2 ++ [m]))
    else if isSweep m = true then
      (acc.1 ++ [CompGroup.sweep run.1 run.2], some (m.winner, [m]))
    else
      (acc.1 ++ [CompGroup.sweep run.1 run.2, CompGroup.single m], none)
  | none =>
    if isSweep m = true then
      (acc.1, some (m.winner, [m]))
    else
      (acc.1 ++ [CompGroup.single m], none)

/-- The trailing `if (run) groups.push(run)` of `renderChronoMonths`
(line 223). -/
def chronoFinish (acc : List CompGroup × Option (String × List MonthResult)) :
    List CompGroup :=
  match acc.2 with
  | some run => acc.1 ++ [CompGroup.sweep run.1 run.2]
  | none => acc.1

/-- The sweep grouping of `renderChronoMonths` over the most-recent-first
month list. -/
def chronoGroups (monthsDesc : List MonthResult) : List CompGroup :=
  chronoFinish (monthsDesc.foldl chronoStep ([], none))

/-- Embeds `renderChronoMonths` (src/static/js/comparison.js lines 202-251) in
state-passing form: the function reads `data.months` only through the
fresh copy `[...data.months].reverse()`, so the returned pair is the
months array as it stands after the call together with the grouped view
it renders. -/
def renderChronoMonths (data : ComparisonResult) :
    List MonthResult × List CompGroup :=
  (data.months, chronoGroups data.months.reverse)

/-- JS `m.month.split("-")` then everything after the first dash. -/
def afterDash : List Char → List Char
  | [] => []
  | c :: rest => if c = '-' then rest else afterDash rest

/-- Cut at the next dash, completing the `split("-")[1]` field. -/
def upToDash : List Char → List Char
  | [] => []
  | c :: rest => if c = '-' then [] else c :: upToDash rest

/-- JS `parseInt`: the leading decimal digits of a string. -/
def digitsToNat (acc : Nat) : List Char → Nat
  | [] => acc
  | c :: rest => if c.isDigit then digitsToNat (acc * 10 + (c.toNat - 48)) rest else acc

/-- The calendar-month index `parseInt(m.month.split("-")[1]) - 1` of a
"YYYY-MM" month string. -/
def monthIdxOf (month : String) : Nat :=
  digitsToNat 0 (upToDash (afterDash month.data)) - 1

/-- The bucket `renderMonthlyGroups` builds for calendar month `i`:
`buckets[moIdx].push(m)` keeps chronological order, so the bucket is the
order-preserving filter of the month list. -/
def monthBucket (months : List MonthResult) (i : Nat) : List MonthResult :=
  months.filter (fun m => monthIdxOf m.month == i)

/-- Embeds `entries.sort` with the `b.month.localeCompare(a.month)` comparator: sorts a
bucket most-recent first (on "YYYY-MM" data localeCompare agrees with the
code-unit order). -/
def sortMonthsDesc (l : List MonthResult) : List MonthResult :=
  @List.insertionSort MonthResult (fun a b => strLeRel b.month a.month)
    (fun a b => instDecidableEqBool (strLe b.month a.month) true) l

/-- The rotated calendar order `renderMonthlyGroups` walks: twelve month
indices starting at the current calendar month (lines 262-265). -/
def rotatedMonthOrder (curMonth : Nat) : List Nat :=
  (List.range 12).map (fun i => (curMonth + i) % 12)

/-- Embeds `renderMonthlyGroups` (src/static/js/comparison.js lines 253-300) in
state-passing form: buckets `data.months` by calendar month, walks the
buckets starting from the current calendar month, skips empty ones and
sorts each bucket most-recent first; the months array after the call is
returned unchanged alongside the grouped view (the month cards of one
group per nonempty bucket). -/
def renderMonthlyGroups (curMonth : Nat) (data : ComparisonResult) :
    List MonthResult × List (List MonthResult) :=
  (data.months,
    (rotatedMonthOrder curMonth).filterMap (fun i =>
      if monthBucket data.months i = [] then none
      else some (sortMonthsDesc (monthBucket data.months i))))

theorem chronoStep_flatten (acc : List CompGroup × Option (String × List MonthResult))
    (m : MonthResult) :
    ((chronoFinish (chronoStep acc m)).map CompGroup.monthsOf).flatten =
      ((chronoFinish acc).map CompGroup.monthsOf).flatten ++ [m] := by
  obtain ⟨gs, run⟩ := acc
  cases run with
  | none =>
    by_cases hs : isSweep m = true <;>
      simp [chronoStep, chronoFinish, hs, CompGroup.monthsOf]
  | some r =>
    by_cases h1 : isSweep m = true ∧ r.1 = m.winner
    · simp [chronoStep, chronoFinish, h1, CompGroup.monthsOf]
    · by_cases hs : isSweep m = true
      · have hne : ¬r.1 = m.winner := fun he => h1 ⟨hs, he⟩
        simp [chronoStep, chronoFinish, hs, hne, CompGroup.monthsOf]
      · simp [chronoStep, chronoFinish, h1, hs, CompGroup.monthsOf]

theorem chrono_foldl_flatten (ms : List MonthResult) :
    ∀ acc, ((chronoFinish (ms.foldl chronoStep acc)).map CompGroup.monthsOf).flatten =
      ((chronoFinish acc).map CompGroup.monthsOf).flatten ++ ms := by
  induction ms with
  | nil => intro acc; simp
  | cons m rest ih =>
    intro acc
    rw [List.foldl_cons, ih (chronoStep acc m), chronoStep_flatten acc m]
    simp

theorem chronoGroups_flatten (ms : List MonthResult) :
    ((chronoGroups ms).map CompGroup.monthsOf).flatten = ms := by
  unfold chronoGroups
  rw [chrono_foldl_flatten]
  simp [chronoFinish]

theorem count_filter_eq {α : Type} [DecidableEq α] (p : α → Bool) (a : α) (l : List α) :
    (l.filter p).count a = if p a = true then l.count a else 0 := by
  by_cases h : p a = true
  · rw [if_pos h, List.count_filter h]
  · rw [if_neg h, List.count_eq_zero]
    intro hmem
    exact h (List.of_mem_filter hmem)

theorem count_monthBucket (months : List MonthResult) (i : Nat) (m : MonthResult) :
    (monthBucket months i).count m =
      if monthIdxOf m.month = i then months.count m else 0 := by
  unfold monthBucket
  rw [count_filter_eq]
  simp only [beq_iff_eq]

theorem sortMonthsDesc_perm (l : List MonthResult) : (sortMonthsDesc l).Perm l :=
  List.perm_insertionSort _ l

theorem sum_map_ite_count (j c : Nat) (l : List Nat) :
    (l.map (fun i => if j = i then c else 0)).sum = l.count j * c := by
  induction l with
  | nil => simp
  | cons x xs ih =>
    by_cases h : j = x
    · subst h
      rw [List.map_cons, List.sum_cons, ih, List.count_cons_self, if_pos rfl]
      ring
    · simp only [List.map_cons, List.sum_cons, if_neg h, ih,
        List.count_cons_of_ne h, Nat.zero_add]

theorem flatten_filterMap_count (months : List MonthResult) (m : MonthResult)
    (idxs : List Nat) :
    ((idxs.filterMap (fun i =>
        if monthBucket months i = [] then none
        else some (sortMonthsDesc (monthBucket months i)))).flatten.count m) =
      (idxs.map (fun i => (monthBucket months i).count m)).sum := by
  induction idxs with
  | nil => rfl
  | cons i rest ih =>
    by_cases hb : monthBucket months i = []
    · simp [List.filterMap_cons, hb, ih]
    · have hred : (if monthBucket months i = [] then none
          else some (sortMonthsDesc (monthBucket months i))) =
          some (sortMonthsDesc (monthBucket months i)) := if_neg hb
      rw [List.filterMap_cons, hred]
      simp only [List.flatten_cons, List.count_append, List.map_cons, List.sum_cons, ih,
        (sortMonthsDesc_perm (monthBucket months i)).count_eq m]

theorem rotatedMonthOrder_count (curMonth j : Nat) (hj : j < 12) :
    (rotatedMonthOrder curMonth).count j = 1 := by
  have hrw : rotatedMonthOrder curMonth =
      (List.range 12).map (fun i => (curMonth % 12 + i) % 12) := by
    unfold rotatedMonthOrder
    refine List.map_congr_left ?_
    intro i _
    omega
  rw [hrw]
  have hc : curMonth % 12 < 12 := by omega
  generalize curMonth % 12 = c at hc
  interval_cases c <;> interval_cases j <;> decide

/-- Claim C9: both display groupings are read-only over the
ComparisonResult: each hands back `data.months` unchanged (they operate
only on copies of the sequence), and their output consists of exactly the
original MonthResult elements - the groups of the chronological view flatten
back to the most-recent-first copy of the months, and the
cards of the grouped-by-calendar-month view are a permutation of the months. -/
theorem render_views_readonly (data : ComparisonResult) (curMonth : Nat)
    (hwf : ∀ m ∈ data.months, monthIdxOf m.month < 12) :
    (renderChronoMonths data).1 = data.months ∧
    (renderMonthlyGroups curMonth data).1 = data.months ∧
    (((renderChronoMonths data).2.map CompGroup.monthsOf).flatten = data.months.reverse) ∧
    ((renderMonthlyGroups curMonth data).2.flatten.Perm data.months) := by
  refine ⟨rfl, rfl, chronoGroups_flatten data.months.reverse, ?_⟩
  rw [List.perm_iff_count]
  intro m
  show ((rotatedMonthOrder curMonth).filterMap (fun i =>
      if monthBucket data.months i = [] then none
      else some (sortMonthsDesc (monthBucket data.months i)))).flatten.count m =
    data.months.count m
  rw [flatten_filterMap_count]
  have hmap : (rotatedMonthOrder curMonth).map (fun i => (monthBucket data.months i).count m) =
      (rotatedMonthOrder curMonth).map
        (fun i => if monthIdxOf m.month = i then data.months.count m else 0) :=
    List.map_congr_left (fun i _ => count_monthBucket data.months i m)
  rw [hmap, sum_map_ite_count]
  by_cases hm : m ∈ data.months
  · rw [rotatedMonthOrder_count curMonth _ (hwf m hm), Nat.one_mul]
  · rw [List.count_eq_zero.mpr hm, Nat.mul_zero]

/-- A sample month and payload for the read-only-view witness. -/
def sampleMonth : MonthResult :=
  { month := "2024-03", loc1 := mmNull, loc2 := mmNull, winner := "tie",
    loc1_score := 0, loc2_score := 0, metric_ties := 0, sunset_diff := none }

/-- A one-month comparison payload. -/
def sampleComparison : ComparisonResult :=
  { months := [sampleMonth], loc1_wins := 0, loc2_wins := 0,
    overall_winner := "tie", window_start := "2024-03", window_end := "2024-03" }

/-- Witness for `render_views_readonly` on a one-month payload viewed
with March as the current month. -/
theorem render_views_readonly_witness :
    (renderChronoMonths sampleComparison).1 = sampleComparison.months ∧
    (renderMonthlyGroups 2 sampleComparison).1 = sampleComparison.months ∧
    (((renderChronoMonths sampleComparison).2.map CompGroup.monthsOf).flatten =
      sampleComparison.months.reverse) ∧
    ((renderMonthlyGroups 2 sampleComparison).2.flatten.Perm sampleComparison.months) :=
  render_views_readonly sampleComparison 2 (by decide)

/-- Lookup in the client comparison cache (`state.comparisonDataMap`),
modelled as an association list from cache key to cached payload. -/
def cacheLookup (k : String) : List (String × ComparisonResult) → Option ComparisonResult
  | [] => none
  | e :: rest => if e.1 = k then some e.2 else cacheLookup k rest

/-- Embeds `state.comparisonDataMap.delete(key)`. -/
def cacheDelete (k : String) (m : List (String × ComparisonResult)) :
    List (String × ComparisonResult) :=
  m.filter (fun e => !(e.1 == k))

theorem cacheLookup_delete (k k' : String) (m : List (String × ComparisonResult)) :
    cacheLookup k' (cacheDelete k m) =
      if k' = k then none else cacheLookup k' m := by
  induction m with
  | nil => simp [cacheDelete, cacheLookup]
  | cons e rest ih =>
    by_cases hek : e.1 = k
    · have : (!(e.1 == k)) = false := by simp [hek]
      by_cases hk : k' = k
      · simp [cacheDelete, List.filter_cons, this, cacheLookup, hk] at ih ⊢
        simpa [hk] using ih
      · have hne : ¬e.1 = k' := fun h => hk (by rw [← h, hek])
        simp [cacheDelete, List.filter_cons, this, cacheLookup, hk, hne] at ih ⊢
        simpa [hk] using ih
    · have : (!(e.1 == k)) = true := by simp [hek]
      by_cases he : e.1 = k'
      · have hk : ¬k' = k := fun h => hek (by rw [he, h])
        simp [cacheDelete, List.filter_cons, this, cacheLookup, he, hk]
      · simp [cacheDelete, List.filter_cons, this, cacheLookup, he] at ih ⊢
        exact ih

/-- The pieces of client state the metric-toggle handler touches: the
comparison cache, the comparison being configured, and the comparison
snapshot last handed to `saveComparisons`. -/
structure ToggleState where
  cache : List (String × ComparisonResult)
  comp : Comp
  savedComp : Option Comp
deriving DecidableEq

/-- The metric-row click handler of `openCompConfig`
(src/static/js/settings.js lines 244-273): it computes the cache key from
the configuration as it still stands (`oldNotScored` reads
`comp.hidden_metrics`/`comp.display_metrics` before any reassignment),
deletes that entry, only then overwrites the two arrays with the values
rebuilt from the toggle rows, and saves the updated comparison. -/
def toggleMetricConfig (s : ToggleState) (newHidden newDisplay : List String) :
    ToggleState :=
  let oldNotScored := joinComma (sortStrings (s.comp.hidden_metrics ++ s.comp.display_metrics))
  let baseKey := comparisonKey s.comp
  let oldCacheKey := if oldNotScored ≠ "" then baseKey ++ "#" ++ oldNotScored else baseKey
  let cache := cacheDelete oldCacheKey s.cache
  let comp := { s.comp with hidden_metrics := newHidden, display_metrics := newDisplay }
  { cache := cache, comp := comp, savedComp := some comp }

/-- Claim C4: toggling the scored/display/hidden state of a metric deletes the
cache entry stored under the key of the old configuration - the key computed
from the hidden/display arrays before they are reassigned - and only then
installs and saves the new arrays: afterwards a lookup under the old
key of the old configuration misses (so the next view of that comparison
recomputes), any other key is untouched, and the saved configuration
carries the new arrays. -/
theorem toggle_clears_old_cache_entry (s : ToggleState)
    (newHidden newDisplay : List String) (k : String) :
    cacheLookup k (toggleMetricConfig s newHidden newDisplay).cache =
      (if k = compCacheKey s.comp then none else cacheLookup k s.cache) ∧
    (toggleMetricConfig s newHidden newDisplay).comp.hidden_metrics = newHidden ∧
    (toggleMetricConfig s newHidden newDisplay).comp.display_metrics = newDisplay ∧
    (toggleMetricConfig s newHidden newDisplay).comp.loc1 = s.comp.loc1 ∧
    (toggleMetricConfig s newHidden newDisplay).comp.loc2 = s.comp.loc2 ∧
    (toggleMetricConfig s newHidden newDisplay).savedComp =
      some (toggleMetricConfig s newHidden newDisplay).comp :=
  ⟨cacheLookup_delete (compCacheKey s.comp) k s.cache, rfl, rfl, rfl, rfl, rfl⟩

/-- Embeds `hiddenParam` (src/static/js/comparison.js lines 19-22): the single
query parameter carrying the concatenation of the hidden and display
metric arrays, empty when there are none. -/
def hiddenParam (c : Comp) : String :=
  let h := c.hidden_metrics ++ c.display_metrics
  if h ≠ [] then "&hidden=" ++ joinComma h else ""

/-- The /api/comparison request URL built by `loadComparisonSummaryForIdx`
and `renderComparisonView` (src/static/js/comparison.js lines 32 and 94):
the coordinates of the two locations plus the merged `hidden` parameter. -/
def comparisonRequestUrl (loc1 loc2 : Location) (c : Comp) : String :=
  "/api/comparison?lat1=" ++ loc1.lat ++ "&lon1=" ++ loc1.lon ++
    "&lat2=" ++ loc2.lat ++ "&lon2=" ++ loc2.lon ++ hiddenParam c

/-- Claim C7, counterexample: the configurations ("a" hidden, "b"
display-only) and ("a" and "b" hidden, nothing display-only) have
different hidden_metrics and display_metrics arrays, yet produce the
identical request URL, because the request carries only one merged
`hidden` query parameter: the hidden/display split does not cross the
boundary as a distinct input. -/
theorem comparison_request_counterexample :
    comparisonRequestUrl cfgSplitAB.loc1 cfgSplitAB.loc2 cfgSplitAB =
      comparisonRequestUrl cfgSplitBoth.loc1 cfgSplitBoth.loc2 cfgSplitBoth ∧
    cfgSplitAB.hidden_metrics ≠ cfgSplitBoth.hidden_metrics ∧
    cfgSplitAB.display_metrics ≠ cfgSplitBoth.display_metrics := by
  refine ⟨rfl, by decide, by decide⟩

/-- Claim C7, amended: every comparison request carries the two locations
(lat1/lon1/lat2/lon2) and a single merged `hidden` parameter equal to the
comma-join of hidden_metrics ++ display_metrics, omitted exactly when both
arrays are empty; the request is determined by the locations and that
merged list, so the individual hidden/display split is not part of the
boundary contract. -/
theorem comparison_request_amended (l1 l2 : Location) (c c' : Comp)
    (hmerge : c.hidden_metrics ++ c.display_metrics =
      c'.hidden_metrics ++ c'.display_metrics) :
    comparisonRequestUrl l1 l2 c = comparisonRequestUrl l1 l2 c' ∧
    (hiddenParam c = "" ↔ c.hidden_metrics ++ c.display_metrics = []) := by
  constructor
  · simp only [comparisonRequestUrl, hiddenParam, hmerge]
  · unfold hiddenParam
    by_cases hnil : c.hidden_metrics ++ c.display_metrics = []
    · rw [if_neg (by simp [hnil])]
      simp [hnil]
    · rw [if_pos hnil]
      refine iff_of_false ?_ hnil
      intro hc
      have hlen : ("&hidden=" ++ joinComma (c.hidden_metrics ++ c.display_metrics)).length =
          ("&hidden=" : String).length +
            (joinComma (c.hidden_metrics ++ c.display_metrics)).length :=
        String.length_append _ _
      rw [hc] at hlen
      have h8 : ("&hidden=" : String).length = 8 := rfl
      have hz : ("" : String).length = 0 := rfl
      omega

/-- Witness for `comparison_request_amended` at the two split
configurations over the same location pair. -/
theorem comparison_request_amended_witness :
    (comparisonRequestUrl cfgSplitAB.loc1 cfgSplitAB.loc2 cfgSplitAB =
      comparisonRequestUrl cfgSplitAB.loc1 cfgSplitAB.loc2 cfgSplitBoth) ∧
    (hiddenParam cfgSplitAB = "" ↔
      cfgSplitAB.hidden_metrics ++ cfgSplitAB.display_metrics = []) :=
  comparison_request_amended cfgSplitAB.loc1 cfgSplitAB.loc2 cfgSplitAB cfgSplitBoth rfl

/-- The ten scoreable metric keys (spec section 4.2; they match the
METRIC_LIST of the client in src/static/js/settings.js lines 161-172). -/
inductive MetricKey
  | sunshine_hours
  | rainy_days
  | overcast_days
  | cozy_overcast_days
  | snow_days
  | freezing_days
  | hot_days
  | sticky_days
  | avg_daylight_hours
  | avg_sunset_min
deriving DecidableEq

/-- Modelled from the spec: the server-side Month Scorer is not under
src/, so its read of one metric value from a MonthlyMetrics is modelled
here; count metrics are always present, averaged metrics may be null. -/
def getMetric (m : MonthlyMetrics) : MetricKey → Option Int
  | .sunshine_hours => some m.sunshine_hours
  | .rainy_days => some m.rainy_days
  | .overcast_days => some m.overcast_days
  | .cozy_overcast_days => some m.cozy_overcast_days
  | .snow_days => some m.snow_days
  | .freezing_days => some m.freezing_days
  | .hot_days => some m.hot_days
  | .sticky_days => some m.sticky_days
  | .avg_daylight_hours => m.avg_daylight_hours
  | .avg_sunset_min => m.avg_sunset_min

/-- Modelled from the spec: the metrics scored "higher is better"
(sunshine, overcast, cozy overcast, daylight, and sunset once its
threshold rule fires); the remaining count metrics are "lower is
better". -/
def higherIsBetter : MetricKey → Bool
  | .sunshine_hours => true
  | .overcast_days => true
  | .cozy_overcast_days => true
  | .avg_daylight_hours => true
  | .avg_sunset_min => true
  | _ => false

/-- The vote of a single metric in the Month Scorer. -/
inductive MetricVote
  | loc1Win
  | loc2Win
  | tie
  | skip
deriving DecidableEq

/-- Modelled from the spec: the per-metric rule of the Month Scorer (spec
section 4.2 steps 1-5, absent from src/): a metric null on either side is
skipped (no vote, no tie); avg_sunset_min awards the later side only when
the absolute difference exceeds 10 minutes and otherwise forces a tie;
every other metric awards the strictly greater (higher-is-better) or
strictly lesser (lower-is-better) side, equality tying - so zero-zero
activity metrics tie, the design decision recorded in the spec. -/
def scoreMetric (m1 m2 : MonthlyMetrics) (k : MetricKey) : MetricVote :=
  match getMetric m1 k, getMetric m2 k with
  | some v1, some v2 =>
    if k = .avg_sunset_min then
      if (v1 - v2).natAbs > 10 then
        if v1 > v2 then .loc1Win else .loc2Win
      else .tie
    else if higherIsBetter k = true then
      if v1 > v2 then .loc1Win else if v2 > v1 then .loc2Win else .tie
    else
      if v1 < v2 then .loc1Win else if v2 < v1 then .loc2Win else .tie
  | _, _ => .skip

/-- Running tally of the votes of one month. -/
structure Tally where
  loc1 : Nat
  loc2 : Nat
  ties : Nat
deriving DecidableEq

/-- Adds one vote to the tally; a skipped metric changes nothing. -/
def applyVote (t : Tally) : MetricVote → Tally
  | .loc1Win => { t with loc1 := t.loc1 + 1 }
  | .loc2Win => { t with loc2 := t.loc2 + 1 }
  | .tie => { t with ties := t.ties + 1 }
  | .skip => t

/-- Modelled from the spec: the tally of the Month Scorer over the scored
metric set. -/
def scoreTally (m1 m2 : MonthlyMetrics) (scored : List MetricKey) : Tally :=
  scored.foldl (fun t k => applyVote t (scoreMetric m1 m2 k)) ⟨0, 0, 0⟩

/-- Modelled from the spec: the MonthResult the Month Scorer produces
(spec section 4.2): the tally, a winner decided solely by comparing the
two scores, and the signed sunset difference when both sides have one. -/
def scoreMonth (month : String) (m1 m2 : MonthlyMetrics)
    (scored : List MetricKey) : MonthResult :=
  let t := scoreTally m1 m2 scored
  { month := month, loc1 := m1, loc2 := m2,
    winner := if t.loc1 > t.loc2 then "loc1"
      else if t.loc2 > t.loc1 then "loc2" else "tie",
    loc1_score := t.loc1, loc2_score := t.loc2, metric_ties := t.ties,
    sunset_diff := match m1.avg_sunset_min, m2.avg_sunset_min with
      | some v1, some v2 => some (v1 - v2)
      | _, _ => none }

theorem applyVote_total (t : Tally) (v : MetricVote) :
    (applyVote t v).loc1 + (applyVote t v).loc2 + (applyVote t v).ties =
      t.loc1 + t.loc2 + t.ties + (if v = .skip then 0 else 1) := by
  cases v <;> simp [applyVote] <;> omega

theorem scoreMetric_skip_iff (m1 m2 : MonthlyMetrics) (k : MetricKey) :
    scoreMetric m1 m2 k = .skip ↔
      ¬((getMetric m1 k).isSome = true ∧ (getMetric m2 k).isSome = true) := by
  cases h1 : getMetric m1 k <;> cases h2 : getMetric m2 k <;>
    simp only [scoreMetric, h1, h2, Option.isSome_none, Option.isSome_some] <;>
    simp
  split_ifs <;> simp

theorem foldl_tally_total (m1 m2 : MonthlyMetrics) (scored : List MetricKey) :
    ∀ t : Tally,
      ((scored.foldl (fun t k => applyVote t (scoreMetric m1 m2 k)) t).loc1 +
        (scored.foldl (fun t k => applyVote t (scoreMetric m1 m2 k)) t).loc2 +
        (scored.foldl (fun t k => applyVote t (scoreMetric m1 m2 k)) t).ties) =
      t.loc1 + t.loc2 + t.ties +
        (scored.filter (fun k =>
          (getMetric m1 k).isSome && (getMetric m2 k).isSome)).length := by
  induction scored with
  | nil => intro t; simp
  | cons k rest ih =>
    intro t
    rw [List.foldl_cons, ih, applyVote_total, List.filter_cons]
    by_cases hk : ((getMetric m1 k).isSome && (getMetric m2 k).isSome) = true
    · rw [if_pos hk]
      have hns : ¬scoreMetric m1 m2 k = .skip := by
        rw [scoreMetric_skip_iff]
        simp only [Bool.and_eq_true] at hk
        simp [hk.1, hk.2]
      rw [if_neg hns]
      simp
      omega
    · rw [if_neg hk]
      have hs : scoreMetric m1 m2 k = .skip := by
        rw [scoreMetric_skip_iff]
        intro hcontra
        exact hk (by simp [hcontra.1, hcontra.2])
      rw [if_pos hs]
      simp

/-- Claim C1 (spec-modelled Month Scorer): for every MonthResult the
scorer produces, loc1_score + loc2_score + metric_ties equals the number
of metrics in the scored set that carry non-null values on both sides
that month; a metric null on either side contributes to none of the
three counters. -/
theorem month_score_invariant (month : String) (m1 m2 : MonthlyMetrics)
    (scored : List MetricKey) :
    (scoreMonth month m1 m2 scored).loc1_score +
      (scoreMonth month m1 m2 scored).loc2_score +
      (scoreMonth month m1 m2 scored).metric_ties =
    (scored.filter (fun k =>
      (getMetric m1 k).isSome && (getMetric m2 k).isSome)).length := by
  have h := foldl_tally_total m1 m2 scored ⟨0, 0, 0⟩
  simpa [scoreMonth, scoreTally] using h
